import Mathlib

/-!
Shallow embedding of the exercise-tracker API (src/index.js): two collections
(Users, Exercises) in a document store, and the four route handlers
POST /api/users, GET /api/users, POST /api/users/:_id/exercises and
GET /api/users/:_id/logs. Request form/query fields are `Option String`
(absent field = `none`); JavaScript string truthiness, `parseInt` and
`new Date(string)` are modelled explicitly. A JS `Date` value is
`Option Int` (milliseconds; `none` is an Invalid Date, whose comparisons
are always false, as NaN comparisons are). Handler results are
`Except (status × message) body`, paired with the post-state of the store.
-/

namespace ExerciseTracker

/-- Milliseconds per day, used by the simplified timestamp encoding. -/
def msPerDay : Int := 86400000

/-- JavaScript truthiness of an optional string field: an absent field
(`undefined`) and the empty string are falsy, every other string is truthy
(this is the test `if (description)`, `if (date)`, `if (from)` in the source). -/
def truthy : Option String → Bool
  | none => false
  | some s => !s.isEmpty

/-- The string carried by an optional field (the absent case is never reached
behind a `truthy` guard). -/
def getVal : Option String → String
  | none => ""
  | some s => s

/-- Accumulate the value of a maximal leading run of decimal digits;
`none` when no digit has been read yet. -/
def digitsVal : List Char → Option Nat → Option Nat
  | [], acc => acc
  | c :: cs, acc =>
    if c.isDigit then digitsVal cs (some ((acc.getD 0) * 10 + (c.toNat - 48)))
    else acc

/-- Model of JavaScript `parseInt(s)` in base 10: an optional sign followed by
leading decimal digits; trailing garbage is ignored; `none` models NaN
(no leading digits at all). -/
def parseIntJS (s : String) : Option Int :=
  match s.toList with
  | [] => none
  | '-' :: cs => (digitsVal cs none).map (fun n => -(n : Int))
  | '+' :: cs => (digitsVal cs none).map (fun n => (n : Int))
  | cs => (digitsVal cs none).map (fun n => (n : Int))

/-- Split a character list at each dash. -/
def splitDash : List Char → List (List Char)
  | [] => [[]]
  | c :: cs =>
    if c = '-' then [] :: splitDash cs
    else
      match splitDash cs with
      | [] => [[c]]
      | p :: ps => (c :: p) :: ps

/-- The value of a nonempty all-digit character list, `none` otherwise. -/
def natOfDigits (cs : List Char) : Option Nat :=
  if cs.isEmpty then none
  else if cs.all (fun c => c.isDigit) then
    some (cs.foldl (fun a c => a * 10 + (c.toNat - 48)) 0)
  else none

/-- Model of JavaScript `new Date(s)` restricted to ISO calendar dates
`YYYY-MM-DD`; any other string yields an Invalid Date (`none`). The
timestamp uses a simplified, strictly monotone day encoding (372 days per
year, 31 per month) so that date order is the lexicographic order on
(year, month, day); the exact values are irrelevant to the properties proved. -/
def parseDate (s : String) : Option Int :=
  match splitDash s.toList with
  | [ys, ms, ds] =>
    match natOfDigits ys, natOfDigits ms, natOfDigits ds with
    | some y, some m, some d =>
      if 1 ≤ m && m ≤ 12 && 1 ≤ d && d ≤ 31 then
        some ((((y : Int) - 1970) * 372 + ((m : Int) - 1) * 31 + ((d : Int) - 1)) * msPerDay)
      else none
    | _, _, _ => none
  | _ => none

/-- Model of `Date.prototype.toDateString`: a human-readable rendering of the
calendar day (no time component), here the day index of the timestamp. -/
def toDateString (t : Int) : String :=
  "day " ++ toString (t.fdiv msPerDay)

/-- A stored User document (`userSchema`: username required and unique). -/
structure User where
  uid : Nat
  username : String
  deriving DecidableEq

/-- A stored Exercise document (`exerciseSchema`). `duration` is the result of
`parseInt` (`none` = NaN, persisted as-is, spec section 3); `date` is always a
valid Date by the time it is persisted. -/
structure Exercise where
  eid : Nat
  userId : Nat
  description : String
  duration : Option Int
  date : Int
  deriving DecidableEq

/-- The document store: the two collections plus the next generated id. -/
structure Store where
  users : List User
  exercises : List Exercise
  nextId : Nat
  deriving DecidableEq

/-- `User.findById`. -/
def findUser (st : Store) (uid : Nat) : Option User :=
  st.users.find? (fun u => u.uid == uid)

/-- POST /api/users: `new User({ username }); save()`. The store enforces
`required` (a missing or empty username fails validation) and `unique` (a
duplicate username violates the index); any failure is caught by the handler
and mapped to the generic response `500 "Could not create user"`, with
nothing persisted. -/
def createUser (st : Store) (username : Option String) :
    Except (Nat × String) (Nat × String) × Store :=
  match username with
  | none => (Except.error (500, "Could not create user"), st)
  | some name =>
    if name.isEmpty || st.users.any (fun u => u.username == name) then
      (Except.error (500, "Could not create user"), st)
    else
      (Except.ok (st.nextId, name),
       { st with users := st.users ++ [⟨st.nextId, name⟩], nextId := st.nextId + 1 })

/-- GET /api/users: all users, `username` and `_id` only. -/
def listUsers (st : Store) : List (Nat × String) :=
  st.users.map (fun u => (u.uid, u.username))

/-- The mongoose Exercise constructor: the schema default for `date`
(`new Date()` evaluated once at schema definition, i.e. process start —
`startDate` here) applies only when no `date` field is passed. -/
def mkExercise (startDate : Int) (eid uid : Nat) (description : String)
    (duration : Option Int) (date : Option Int) : Exercise :=
  { eid := eid, userId := uid, description := description,
    duration := duration, date := date.getD startDate }

/-- The response body of POST /api/users/:_id/exercises. -/
structure ExerciseResp where
  _id : Nat
  username : String
  date : String
  duration : Option Int
  description : String
  deriving DecidableEq

/-- POST /api/users/:_id/exercises. In source order: required-fields check on
`description` and `duration` (JS truthiness), user lookup, then date handling
(`let exerciseDate = new Date()`, evaluated per request — `now` here — replaced
by the parsed supplied date when `date` is truthy, with a 400 on an unparseable
value). The exercise is persisted with `parseInt(duration)` and the response
formats the date with `toDateString`. -/
def addExercise (st : Store) (startDate now : Int) (uid : Nat)
    (description duration date : Option String) :
    Except (Nat × String) ExerciseResp × Store :=
  if !(truthy description) || !(truthy duration) then
    (Except.error (400, "Description and duration are required"), st)
  else
    match findUser st uid with
    | none => (Except.error (404, "User not found"), st)
    | some user =>
      match (if truthy date then parseDate (getVal date) else some now) with
      | none => (Except.error (400, "Invalid date format"), st)
      | some exerciseDate =>
        let newExercise : Exercise :=
          mkExercise startDate st.nextId user.uid (getVal description)
            (parseIntJS (getVal duration)) (some exerciseDate)
        (Except.ok
          { _id := user.uid, username := user.username,
            date := toDateString exerciseDate,
            duration := newExercise.duration,
            description := newExercise.description },
         { st with exercises := st.exercises ++ [newExercise],
                   nextId := st.nextId + 1 })

/-- One entry of the returned log. -/
structure LogEntry where
  description : String
  duration : Option Int
  date : String
  deriving DecidableEq

/-- The response body of GET /api/users/:_id/logs. -/
structure LogResp where
  _id : Nat
  username : String
  count : Nat
  log : List LogEntry
  deriving DecidableEq

/-- Formatting of a stored exercise into a log entry. -/
def entryOf (e : Exercise) : LogEntry :=
  { description := e.description, duration := e.duration,
    date := toDateString e.date }

/-- A stored (valid) date compared against a lower query bound: `b <= d`.
An Invalid Date bound never matches (NaN comparisons are false). -/
def geBound (d : Int) : Option Int → Bool
  | none => false
  | some b => b ≤ d

/-- A stored (valid) date compared against an upper query bound: `d <= b`.
An Invalid Date bound never matches. -/
def leBound (d : Int) : Option Int → Bool
  | none => false
  | some b => d ≤ b

/-- `Exercise.find({ userId })`: the user's exercises, in insertion order. -/
def candidates (st : Store) (uid : Nat) : List Exercise :=
  st.exercises.filter (fun e => e.userId == uid)

/-- The date range applied by the log handler when `from` or `to` is truthy:
`.where("date").gte(dateQuery.$gte || 0).lte(dateQuery.$lte || new Date())`.
A set `$gte`/`$lte` is a Date *object* — truthy even when Invalid — so `|| 0`
(resp. `|| new Date()`) only replaces an *unset* bound: the lower bound
defaults to the epoch and the upper bound to the request time (`now`). -/
def dateFilter (now : Int) (fromQ toQ : Option String) (l : List Exercise) :
    List Exercise :=
  if truthy fromQ || truthy toQ then
    let gteB : Option Int := if truthy fromQ then parseDate (getVal fromQ) else some 0
    let lteB : Option Int := if truthy toQ then parseDate (getVal toQ) else some now
    l.filter (fun e => geBound e.date gteB && leBound e.date lteB)
  else l

/-- Stable insertion keeping dates ascending (the new element goes before the
first strictly later one, after equal ones already present... before the first
element it is `<=` to). -/
def insertByDate (e : Exercise) : List Exercise → List Exercise
  | [] => [e]
  | x :: xs => if e.date ≤ x.date then e :: x :: xs else x :: insertByDate e xs

/-- `sort({ date: 1 })`: stable sort by date ascending. -/
def sortByDate : List Exercise → List Exercise
  | [] => []
  | x :: xs => insertByDate x (sortByDate xs)

/-- `.limit(parseInt(limit))`, applied when `limit` is truthy. A NaN limit is
modelled as a no-op; a negative limit takes nothing. -/
def applyLimit (limit : Option String) (l : List Exercise) : List Exercise :=
  if truthy limit then
    match parseIntJS (getVal limit) with
    | some n => l.take n.toNat
    | none => l
  else l

/-- GET /api/users/:_id/logs: user lookup (404 when absent), date range filter,
then — per MongoDB query semantics, where the sort stage precedes the limit
stage regardless of the order the query builder methods are called in —
sort by date ascending and cap with `limit`. `count` is the length of the
returned (filtered, limited) log. -/
def getLogs (st : Store) (now : Int) (uid : Nat)
    (fromQ toQ limit : Option String) : Except (Nat × String) LogResp :=
  match findUser st uid with
  | none => Except.error (404, "User not found")
  | some user =>
    let exercises :=
      applyLimit limit (sortByDate (dateFilter now fromQ toQ (candidates st uid)))
    let formattedLog := exercises.map entryOf
    Except.ok { _id := user.uid, username := user.username,
                count := formattedLog.length, log := formattedLog }

/-! Helper lemmas -/

/-- A present, nonempty field is truthy. -/
theorem truthy_some {s : String} (h : s ≠ "") : truthy (some s) = true := by
  have he : s.isEmpty = false := by
    cases he : s.isEmpty
    · rfl
    · exact absurd ((String.isEmpty_iff s).mp he) h
  simp [truthy, he]

/-- The limit stage returns nothing on an empty result set. -/
theorem applyLimit_nil (limit : Option String) : applyLimit limit [] = [] := by
  unfold applyLimit
  by_cases h : truthy limit = true
  · rw [if_pos h]
    cases parseIntJS (getVal limit) <;> simp
  · rw [if_neg h]

/-- A user located by id-lookup carries the looked-up id. -/
theorem find?_uid_eq : ∀ (l : List User) (uid : Nat) (u : User),
    l.find? (fun v => v.uid == uid) = some u → u.uid = uid := by
  intro l
  induction l with
  | nil => intro uid u h; exact absurd h (by simp)
  | cons x xs ih =>
    intro uid u h
    rw [List.find?_cons] at h
    cases hx : (x.uid == uid) with
    | true =>
      rw [hx] at h
      have h' : some x = some u := h
      have hxu : x = u := by injection h'
      rw [← hxu]
      simpa using hx
    | false =>
      rw [hx] at h
      exact ih uid u h

/-- Membership in an insertion. -/
theorem mem_insertByDate {x e : Exercise} {l : List Exercise} :
    x ∈ insertByDate e l ↔ x = e ∨ x ∈ l := by
  induction l with
  | nil => simp [insertByDate]
  | cons y ys ih =>
    unfold insertByDate
    by_cases h : e.date ≤ y.date
    · rw [if_pos h]
      simp [List.mem_cons]
    · rw [if_neg h]
      simp [List.mem_cons, ih]
      tauto

/-- Sorting preserves membership. -/
theorem mem_sortByDate {x : Exercise} {l : List Exercise} :
    x ∈ sortByDate l ↔ x ∈ l := by
  induction l with
  | nil => simp [sortByDate]
  | cons y ys ih => simp [sortByDate, mem_insertByDate, ih, List.mem_cons]

/-- Insertion adds one element to the length. -/
theorem length_insertByDate (e : Exercise) (l : List Exercise) :
    (insertByDate e l).length = l.length + 1 := by
  induction l with
  | nil => rfl
  | cons y ys ih =>
    unfold insertByDate
    by_cases h : e.date ≤ y.date
    · rw [if_pos h]
      rfl
    · rw [if_neg h]
      simp [List.length_cons, ih]

/-- Sorting preserves the length. -/
theorem length_sortByDate (l : List Exercise) :
    (sortByDate l).length = l.length := by
  induction l with
  | nil => rfl
  | cons y ys ih => simp [sortByDate, length_insertByDate, ih]

/-- The order used by the log sort. -/
def dateLE (a b : Exercise) : Prop := a.date ≤ b.date

/-- Inserting into an ascending list keeps it ascending. -/
theorem pairwise_insertByDate {e : Exercise} {l : List Exercise}
    (h : l.Pairwise dateLE) : (insertByDate e l).Pairwise dateLE := by
  induction l with
  | nil => simp [insertByDate]
  | cons y ys ih =>
    rcases List.pairwise_cons.mp h with ⟨hy, hys⟩
    unfold insertByDate
    by_cases hle : e.date ≤ y.date
    · rw [if_pos hle]
      refine List.pairwise_cons.mpr ⟨?_, h⟩
      intro b hb
      rcases List.mem_cons.mp hb with rfl | hb'
      · exact hle
      · exact le_trans hle (hy b hb')
    · rw [if_neg hle]
      refine List.pairwise_cons.mpr ⟨?_, ih hys⟩
      intro b hb
      rcases mem_insertByDate.mp hb with rfl | hb'
      · exact le_of_lt (lt_of_not_le hle)
      · exact hy b hb'

/-- The log sort produces a date-ascending list. -/
theorem pairwise_sortByDate (l : List Exercise) :
    (sortByDate l).Pairwise dateLE := by
  induction l with
  | nil => simp [sortByDate]
  | cons y ys ih => exact pairwise_insertByDate ih

/-- In an ascending list, everything kept by `take` is dated no later than
everything discarded by `drop`. -/
theorem sorted_take_le_drop {l : List Exercise} (h : l.Pairwise dateLE) (n : Nat) :
    ∀ x ∈ l.take n, ∀ y ∈ l.drop n, x.date ≤ y.date := by
  have h2 : (l.take n ++ l.drop n).Pairwise dateLE := by
    rw [List.take_append_drop]; exact h
  exact fun x hx y hy => (List.pairwise_append.mp h2).2.2 x hx y hy

/-! Claim theorems -/

/-- C9: every successful log response reports `count` equal to the number of
entries of the returned `log` array (the records remaining after filtering and
limiting), not the user's total number of stored exercises. -/
theorem c9_count_is_returned_length (st : Store) (now : Int) (uid : Nat)
    (fromQ toQ limit : Option String) (r : LogResp)
    (h : getLogs st now uid fromQ toQ limit = Except.ok r) :
    r.count = r.log.length := by
  unfold getLogs at h
  cases hf : findUser st uid with
  | none => rw [hf] at h; exact absurd h (by simp)
  | some u =>
    rw [hf] at h
    cases h
    rfl

/-- Witness for C9 at a concrete request. -/
theorem c9_witness :
    (LogResp.mk 1 "ann" 1 [⟨"jog", some 5, "day 0"⟩]).count =
      (LogResp.mk 1 "ann" 1 [⟨"jog", some 5, "day 0"⟩]).log.length :=
  c9_count_is_returned_length ⟨[⟨1, "ann"⟩], [⟨1, 1, "jog", some 5, 200⟩], 2⟩
    100 1 none none none _ rfl

/-- C10: a create-user request with a missing or empty `username` is rejected
with the same generic 500 response as any persistence failure (there is no 400
validation path), and no User record is created. -/
theorem c10_missing_username_is_500 (st : Store) :
    createUser st none = (Except.error (500, "Could not create user"), st) ∧
    createUser st (some "") = (Except.error (500, "Could not create user"), st) := by
  constructor
  · rfl
  · rfl

/-- C6: adding an exercise with truthy `description` and `duration` for an id
that matches no User fails with the 404 "User not found" error — an error
value distinct from the 400 validation errors — and leaves the store (in
particular the Exercises collection) unchanged. -/
theorem c6_unknown_user_404 (st : Store) (startDate now : Int) (uid : Nat)
    (ds us : String) (dateQ : Option String)
    (hd : ds ≠ "") (hr : us ≠ "") (hu : findUser st uid = none) :
    addExercise st startDate now uid (some ds) (some us) dateQ =
      (Except.error (404, "User not found"), st) := by
  unfold addExercise
  rw [truthy_some hd, truthy_some hr, hu]
  simp

/-- Witness for C6 at a concrete request. -/
theorem c6_witness :
    addExercise ⟨[⟨1, "ann"⟩], [], 2⟩ 999 5 7 (some "run") (some "30") none =
      (Except.error (404, "User not found"), ⟨[⟨1, "ann"⟩], [], 2⟩) :=
  c6_unknown_user_404 ⟨[⟨1, "ann"⟩], [], 2⟩ 999 5 7 "run" "30" none
    (by decide) (by decide) rfl

/-- C8: adding an exercise with truthy `description` and `duration`, an
existing user, and a supplied (truthy) `date` that does not parse as a
calendar date fails with the 400 "Invalid date format" error and persists
no Exercise (the store is unchanged). -/
theorem c8_invalid_date_400 (st : Store) (startDate now : Int) (uid : Nat)
    (u : User) (ds us dts : String)
    (hd : ds ≠ "") (hr : us ≠ "") (hu : findUser st uid = some u)
    (hdt : dts ≠ "") (hbad : parseDate dts = none) :
    addExercise st startDate now uid (some ds) (some us) (some dts) =
      (Except.error (400, "Invalid date format"), st) := by
  unfold addExercise
  rw [truthy_some hd, truthy_some hr, hu, truthy_some hdt]
  simp [getVal, hbad]

/-- Witness for C8 at a concrete request. -/
theorem c8_witness :
    addExercise ⟨[⟨1, "ann"⟩], [], 2⟩ 999 5 1 (some "run") (some "30")
        (some "not-a-date") =
      (Except.error (400, "Invalid date format"), ⟨[⟨1, "ann"⟩], [], 2⟩) :=
  c8_invalid_date_400 ⟨[⟨1, "ann"⟩], [], 2⟩ 999 5 1 ⟨1, "ann"⟩ "run" "30"
    "not-a-date" (by decide) (by decide) rfl (by decide) rfl

/-- C4: a malformed (truthy but unparseable) `from` or `to` on the log
endpoint of an existing user produces no error response: the handler has no
validation path for it and still answers with the `{_id, username, count, log}`
shape — here with the Invalid-Date bound comparing false against every stored
date, i.e. a silent always-false filter. -/
theorem c4_malformed_range_no_error (st : Store) (now : Int) (uid : Nat)
    (u : User) (fromQ toQ limit : Option String)
    (hu : findUser st uid = some u)
    (hbad : (truthy fromQ = true ∧ parseDate (getVal fromQ) = none) ∨
            (truthy toQ = true ∧ parseDate (getVal toQ) = none)) :
    getLogs st now uid fromQ toQ limit =
      Except.ok { _id := u.uid, username := u.username, count := 0, log := [] } := by
  have hfilter : dateFilter now fromQ toQ (candidates st uid) = [] := by
    unfold dateFilter
    rcases hbad with ⟨ht, hp⟩ | ⟨ht, hp⟩
    · simp [ht, hp, geBound]
    · simp [ht, hp, leBound]
  unfold getLogs
  rw [hu, hfilter]
  show Except.ok _ = _
  rw [show sortByDate [] = [] from rfl, applyLimit_nil]
  rfl

/-- Witness for C4 at a concrete request. -/
theorem c4_witness :
    getLogs ⟨[⟨1, "ann"⟩], [⟨1, 1, "jog", some 5, 200⟩], 2⟩ 100 1
        (some "not-a-date") none none =
      Except.ok { _id := 1, username := "ann", count := 0, log := [] } :=
  c4_malformed_range_no_error ⟨[⟨1, "ann"⟩], [⟨1, 1, "jog", some 5, 200⟩], 2⟩
    100 1 ⟨1, "ann"⟩ (some "not-a-date") none none rfl (Or.inl ⟨rfl, rfl⟩)

/-- C2: when `date` is not truthy (absent or empty), the persisted Exercise is
dated `now` — the `new Date()` the handler evaluates per request — for *every*
value of the schema-registration-time default `startDate`, i.e. the date is
the request moment, not a value fixed once at process start; and the response
renders that day with `toDateString`. -/
theorem c2_date_defaults_to_request_time (st : Store) (startDate now : Int)
    (uid : Nat) (u : User) (ds us : String) (dateQ : Option String)
    (hd : ds ≠ "") (hr : us ≠ "") (hu : findUser st uid = some u)
    (hdq : truthy dateQ = false) :
    addExercise st startDate now uid (some ds) (some us) dateQ =
      (Except.ok ⟨u.uid, u.username, toDateString now, parseIntJS us, ds⟩,
       { st with
           exercises := st.exercises ++ [⟨st.nextId, u.uid, ds, parseIntJS us, now⟩],
           nextId := st.nextId + 1 }) := by
  unfold addExercise
  rw [truthy_some hd, truthy_some hr, hu, hdq]
  simp [mkExercise, getVal]

/-- Witness for C2 at a concrete request: the schema default (999) is ignored
and the request time (5) is persisted. -/
theorem c2_witness :
    addExercise ⟨[⟨1, "ann"⟩], [], 2⟩ 999 5 1 (some "run") (some "30") none =
      (Except.ok ⟨1, "ann", toDateString 5, parseIntJS "30", "run"⟩,
       { users := [⟨1, "ann"⟩],
         exercises := [⟨2, 1, "run", parseIntJS "30", 5⟩], nextId := 3 }) :=
  c2_date_defaults_to_request_time ⟨[⟨1, "ann"⟩], [], 2⟩ 999 5 1 ⟨1, "ann"⟩
    "run" "30" none (by decide) (by decide) rfl rfl

/-- C5: creating a user whose username already exists fails with the generic
500 response carrying no detail on the cause and persists nothing, while a
fresh nonempty username is persisted and echoed back with a newly generated
id (one no existing user carries). -/
theorem c5_username_uniqueness (st : Store) (name : String) (hname : name ≠ "")
    (hfresh : ∀ u ∈ st.users, u.uid ≠ st.nextId) :
    ((∃ u ∈ st.users, u.username = name) →
        createUser st (some name) =
          (Except.error (500, "Could not create user"), st)) ∧
    ((∀ u ∈ st.users, u.username ≠ name) →
        createUser st (some name) =
          (Except.ok (st.nextId, name),
           { st with users := st.users ++ [⟨st.nextId, name⟩],
                     nextId := st.nextId + 1 }) ∧
        ∀ u ∈ st.users, u.uid ≠ st.nextId) := by
  have hne : name.isEmpty = false := by
    cases he : name.isEmpty
    · rfl
    · exact absurd ((String.isEmpty_iff name).mp he) hname
  constructor
  · rintro ⟨u, hu, huname⟩
    have hany : (st.users.any fun v => v.username == name) = true :=
      List.any_eq_true.mpr ⟨u, hu, by simp [huname]⟩
    simp [createUser, hne, hany]
  · intro hall
    have hany : (st.users.any fun v => v.username == name) = false := by
      apply Bool.eq_false_iff.mpr
      intro h
      rcases List.any_eq_true.mp h with ⟨u, hu, he⟩
      exact hall u hu (by simpa using he)
    refine ⟨?_, hfresh⟩
    simp [createUser, hne, hany]

/-- Witness for C5 at a concrete request (duplicate username "ann"). -/
theorem c5_witness :
    ((∃ u ∈ [User.mk 1 "ann"], u.username = "ann") →
        createUser ⟨[⟨1, "ann"⟩], [], 2⟩ (some "ann") =
          (Except.error (500, "Could not create user"), ⟨[⟨1, "ann"⟩], [], 2⟩)) ∧
    ((∀ u ∈ [User.mk 1 "ann"], u.username ≠ "ann") →
        createUser ⟨[⟨1, "ann"⟩], [], 2⟩ (some "ann") =
          (Except.ok (2, "ann"), ⟨[⟨1, "ann"⟩, ⟨2, "ann"⟩], [], 3⟩) ∧
        ∀ u ∈ [User.mk 1 "ann"], u.uid ≠ 2) :=
  c5_username_uniqueness ⟨[⟨1, "ann"⟩], [], 2⟩ "ann" (by decide) (by decide)

/-- The range predicate the amended C1 describes: with neither bound given
nothing is filtered; with at least one bound given, a given parseable `from`
is an inclusive lower bound, a given parseable `to` an inclusive upper bound,
an *omitted* `from` defaults to the epoch (lower bound 0), an *omitted* `to`
defaults to the request time `now`, and a given unparseable bound matches
nothing. -/
def amendedKeep (now : Int) (fromQ toQ : Option String) (d : Int) : Bool :=
  if !(truthy fromQ) && !(truthy toQ) then true
  else
    (if truthy fromQ then
        match parseDate (getVal fromQ) with
        | some f => decide (f ≤ d)
        | none => false
      else decide (0 ≤ d)) &&
    (if truthy toQ then
        match parseDate (getVal toQ) with
        | some t => decide (d ≤ t)
        | none => false
      else decide (d ≤ now))

/-- The handler's range construction (`$gte || 0`, `$lte || new Date()`)
computes exactly the amended range predicate. -/
theorem dateFilter_eq_amendedKeep (now : Int) (fromQ toQ : Option String)
    (l : List Exercise) :
    dateFilter now fromQ toQ l =
      l.filter (fun e => amendedKeep now fromQ toQ e.date) := by
  unfold dateFilter amendedKeep
  cases hf : truthy fromQ <;> cases ht : truthy toQ <;> simp only [Bool.not_false,
    Bool.not_true, Bool.and_self, Bool.false_and, Bool.and_false, Bool.true_and,
    Bool.and_true, Bool.or_self, Bool.or_true, Bool.true_or, Bool.false_or,
    if_true, if_false, Bool.false_eq_true, reduceIte]
  · simp
  · apply List.filter_congr
    intro e _
    cases hp : parseDate (getVal toQ) <;> simp [geBound, leBound, hp]
  · apply List.filter_congr
    intro e _
    cases hp : parseDate (getVal fromQ) <;> simp [geBound, leBound, hp]
  · apply List.filter_congr
    intro e _
    cases hpf : parseDate (getVal fromQ) <;> cases hpt : parseDate (getVal toQ) <;>
      simp [geBound, leBound, hpf, hpt]

/-- C1 (amended): for a getLogs request on an existing user, when neither
`from` nor `to` is given no date filter is applied; when at least one is
given, both ends of the range are enforced with inclusive bounds — a given
parseable bound as stated, but an omitted `from` defaulting to the epoch
(exercises dated before 1970 are excluded) and an omitted `to` defaulting to
the request time (exercises dated after the request time are excluded). -/
theorem c1_amended_range (st : Store) (now : Int) (uid : Nat) (u : User)
    (fromQ toQ limit : Option String) (hu : findUser st uid = some u) :
    getLogs st now uid fromQ toQ limit =
      Except.ok
        { _id := u.uid, username := u.username,
          count := ((applyLimit limit (sortByDate ((candidates st uid).filter
            (fun e => amendedKeep now fromQ toQ e.date)))).map entryOf).length,
          log := (applyLimit limit (sortByDate ((candidates st uid).filter
            (fun e => amendedKeep now fromQ toQ e.date)))).map entryOf } := by
  unfold getLogs
  rw [hu, dateFilter_eq_amendedKeep]

/-- Witness for the amended C1 at a concrete request. -/
theorem c1_amended_witness :
    getLogs ⟨[⟨1, "ann"⟩], [⟨1, 1, "jog", some 5, 200⟩], 2⟩ 100 1
        (some "1970-01-01") none none =
      Except.ok
        { _id := 1, username := "ann",
          count := ((applyLimit none (sortByDate
            ((candidates ⟨[⟨1, "ann"⟩], [⟨1, 1, "jog", some 5, 200⟩], 2⟩ 1).filter
              (fun e => amendedKeep 100 (some "1970-01-01") none e.date)))).map
                entryOf).length,
          log := (applyLimit none (sortByDate
            ((candidates ⟨[⟨1, "ann"⟩], [⟨1, 1, "jog", some 5, 200⟩], 2⟩ 1).filter
              (fun e => amendedKeep 100 (some "1970-01-01") none e.date)))).map
                entryOf } :=
  c1_amended_range ⟨[⟨1, "ann"⟩], [⟨1, 1, "jog", some 5, 200⟩], 2⟩ 100 1
    ⟨1, "ann"⟩ (some "1970-01-01") none none rfl

/-- Counterexample to C1 as stated: the user's only exercise is dated 200 —
not strictly before the given `from` (which parses to 0 ≤ 200) — and `to` is
omitted, so the claim says it is returned; but it is dated strictly after the
request time 100, and the code's omitted-`to` default (`$lte || new Date()`)
excludes it: the returned log is empty. -/
theorem c1_counterexample :
    parseDate "1970-01-01" = some 0 ∧
    (0 : Int) ≤ 200 ∧ (100 : Int) < 200 ∧
    getLogs ⟨[⟨1, "ann"⟩], [⟨1, 1, "jog", some 5, 200⟩], 2⟩ 100 1
        (some "1970-01-01") none none =
      Except.ok { _id := 1, username := "ann", count := 0, log := [] } :=
  ⟨rfl, by decide, by decide, rfl⟩

/-- C3: a getLogs request with `limit` parsing to n, on an existing user with
more than n exercises matching the date filter, returns exactly n records;
they are the first n of the date-ascending sort of the matching exercises —
the n earliest, every returned record dated no later than every withheld
one — so the limit caps the result after the ordering, not before. -/
theorem c3_limit_caps_after_sort (st : Store) (now : Int) (uid : Nat) (u : User)
    (fromQ toQ : Option String) (ls : String) (n : Nat)
    (hu : findUser st uid = some u)
    (hls : parseIntJS ls = some (n : Int))
    (hcount : n < (dateFilter now fromQ toQ (candidates st uid)).length) :
    ∃ r, getLogs st now uid fromQ toQ (some ls) = Except.ok r ∧
      r.log.length = n ∧
      r.log = ((sortByDate (dateFilter now fromQ toQ (candidates st uid))).take n).map
        entryOf ∧
      ((sortByDate (dateFilter now fromQ toQ (candidates st uid))).take n).Pairwise
        dateLE ∧
      (∀ x ∈ (sortByDate (dateFilter now fromQ toQ (candidates st uid))).take n,
       ∀ y ∈ (sortByDate (dateFilter now fromQ toQ (candidates st uid))).drop n,
         x.date ≤ y.date) := by
  have hne : ls ≠ "" := by
    intro he
    rw [he] at hls
    exact absurd hls (by simp [parseIntJS])
  have happ : applyLimit (some ls)
      (sortByDate (dateFilter now fromQ toQ (candidates st uid))) =
      (sortByDate (dateFilter now fromQ toQ (candidates st uid))).take n := by
    unfold applyLimit
    rw [truthy_some hne]
    simp [getVal, hls]
  have hgl : getLogs st now uid fromQ toQ (some ls) =
      Except.ok
        ⟨u.uid, u.username,
         (((sortByDate (dateFilter now fromQ toQ (candidates st uid))).take n).map
           entryOf).length,
         ((sortByDate (dateFilter now fromQ toQ (candidates st uid))).take n).map
           entryOf⟩ := by
    unfold getLogs
    rw [hu, happ]
  refine ⟨_, hgl, ?_, rfl, ?_, ?_⟩
  · simp only [List.length_map, List.length_take, length_sortByDate]
    omega
  · exact List.Pairwise.sublist (List.take_sublist _ _) (pairwise_sortByDate _)
  · exact sorted_take_le_drop (pairwise_sortByDate _) n

/-- Witness for C3 at a concrete request: three exercises, limit 1. -/
theorem c3_witness :
    ∃ r, getLogs ⟨[⟨1, "ann"⟩], [⟨1, 1, "a", some 5, 300⟩, ⟨2, 1, "b", some 6, 100⟩,
          ⟨3, 1, "c", some 7, 200⟩], 4⟩ 1000 1 none none (some "1") = Except.ok r ∧
      r.log.length = 1 ∧
      r.log = ((sortByDate (dateFilter 1000 none none
        (candidates ⟨[⟨1, "ann"⟩], [⟨1, 1, "a", some 5, 300⟩, ⟨2, 1, "b", some 6, 100⟩,
          ⟨3, 1, "c", some 7, 200⟩], 4⟩ 1))).take 1).map entryOf ∧
      ((sortByDate (dateFilter 1000 none none
        (candidates ⟨[⟨1, "ann"⟩], [⟨1, 1, "a", some 5, 300⟩, ⟨2, 1, "b", some 6, 100⟩,
          ⟨3, 1, "c", some 7, 200⟩], 4⟩ 1))).take 1).Pairwise dateLE ∧
      (∀ x ∈ (sortByDate (dateFilter 1000 none none
        (candidates ⟨[⟨1, "ann"⟩], [⟨1, 1, "a", some 5, 300⟩, ⟨2, 1, "b", some 6, 100⟩,
          ⟨3, 1, "c", some 7, 200⟩], 4⟩ 1))).take 1,
       ∀ y ∈ (sortByDate (dateFilter 1000 none none
        (candidates ⟨[⟨1, "ann"⟩], [⟨1, 1, "a", some 5, 300⟩, ⟨2, 1, "b", some 6, 100⟩,
          ⟨3, 1, "c", some 7, 200⟩], 4⟩ 1))).drop 1,
         x.date ≤ y.date) :=
  c3_limit_caps_after_sort ⟨[⟨1, "ann"⟩], [⟨1, 1, "a", some 5, 300⟩,
      ⟨2, 1, "b", some 6, 100⟩, ⟨3, 1, "c", some 7, 200⟩], 4⟩ 1000 1 ⟨1, "ann"⟩
    none none "1" 1 rfl rfl (by decide)

/-- C7: every Exercise successfully created by addExercise is appended to the
store carrying the supplied description and the integer coercion of the
supplied duration, and the log endpoint afterwards returns an entry with that
very description and duration for it. -/
theorem c7_roundtrip (st : Store) (startDate now now2 : Int) (uid : Nat)
    (ds us : String) (dateQ : Option String) (resp : ExerciseResp) (st2 : Store)
    (h : addExercise st startDate now uid (some ds) (some us) dateQ =
      (Except.ok resp, st2)) :
    ∃ e : Exercise,
      st2.exercises = st.exercises ++ [e] ∧
      e.description = ds ∧
      e.duration = parseIntJS us ∧
      ∀ r : LogResp, getLogs st2 now2 uid none none none = Except.ok r →
        LogEntry.mk ds (parseIntJS us) (toDateString e.date) ∈ r.log := by
  unfold addExercise at h
  split at h
  · exact absurd (congrArg Prod.fst h) (by simp)
  · split at h
    · exact absurd (congrArg Prod.fst h) (by simp)
    · rename_i user hfu
      split at h
      · exact absurd (congrArg Prod.fst h) (by simp)
      · rename_i d hpd
        rw [Prod.mk.injEq] at h
        obtain ⟨hresp, hst2⟩ := h
        refine ⟨mkExercise startDate st.nextId user.uid ds (parseIntJS us) (some d),
          ?_, rfl, rfl, ?_⟩
        · rw [← hst2]
          rfl
        · intro r hr
          have hfind2 : findUser st2 uid = some user := by
            unfold findUser
            rw [show st2.users = st.users by rw [← hst2]]
            exact hfu
          unfold getLogs at hr
          rw [hfind2] at hr
          injection hr with hr'
          rw [← hr']
          show _ ∈ (applyLimit none (sortByDate
            (dateFilter now2 none none (candidates st2 uid)))).map entryOf
          rw [show applyLimit none (sortByDate
              (dateFilter now2 none none (candidates st2 uid))) =
              sortByDate (candidates st2 uid) from rfl]
          refine List.mem_map.mpr
            ⟨mkExercise startDate st.nextId user.uid ds (parseIntJS us) (some d),
             mem_sortByDate.mpr (List.mem_filter.mpr ⟨?_, ?_⟩), rfl⟩
          · rw [← hst2]
            exact List.mem_append_right _ (List.mem_singleton.mpr rfl)
          · have hfu' : st.users.find? (fun v => v.uid == uid) = some user := hfu
            have hq : user.uid = uid := find?_uid_eq st.users uid user hfu'
            show ((mkExercise startDate st.nextId user.uid ds (parseIntJS us)
              (some d)).userId == uid) = true
            simp [mkExercise, hq]

/-- Witness for C7 at a concrete request. -/
theorem c7_witness :
    ∃ e : Exercise,
      (⟨[⟨1, "ann"⟩], [⟨2, 1, "run", some 30, 5⟩], 3⟩ : Store).exercises =
        (⟨[⟨1, "ann"⟩], [], 2⟩ : Store).exercises ++ [e] ∧
      e.description = "run" ∧
      e.duration = parseIntJS "30" ∧
      ∀ r : LogResp, getLogs ⟨[⟨1, "ann"⟩], [⟨2, 1, "run", some 30, 5⟩], 3⟩ 0 1
          none none none = Except.ok r →
        LogEntry.mk "run" (parseIntJS "30") (toDateString e.date) ∈ r.log :=
  c7_roundtrip ⟨[⟨1, "ann"⟩], [], 2⟩ 999 5 0 1 "run" "30" none
    ⟨1, "ann", "day 0", some 30, "run"⟩
    ⟨[⟨1, "ann"⟩], [⟨2, 1, "run", some 30, 5⟩], 3⟩ rfl

end ExerciseTracker
